import Mathlib

/-!
Shallow embedding of the storage-miner actor core (package `miner`):
`monies.go`, the penalty/validation logic of `miner_actor.go`, and the
testground policy constants.  Token amounts, storage power and chain epochs
are Go `big.Int`/`int64` values, embedded as `Int`.  Components of the
repository that are collaborators of these files (the `smoothing` package,
`miner_state.go`, `deadlines.go`) are modelled from the specification and
marked as such in their doc comments.
-/

namespace MinerActor

/-- Exit codes surfaced to the VM (runtime/exitcode package, spec section 7). -/
inductive ExitCode where
  | ErrIllegalArgument
  | ErrForbidden
  | ErrNotFound
  | ErrIllegalState
  | ErrInsufficientFunds
  | ErrSerialization
  deriving DecidableEq, Repr

/-- Modelled from the spec: a smoothed filter estimate maintained by the reward
actor (`smoothing.FilterEstimate`, code not under src).  The core treats it as
opaque and only observes `Estimate()`, the smoothed scalar value; we carry that
observation directly. -/
structure FilterEstimate where
  estimate : Int
  deriving DecidableEq, Repr

/-- Modelled from the spec: `smoothing.ExtrapolatedCumSumOfRatio` (code not
under src) is an opaque deterministic fixed-point (Q.128) function of a
projection duration and the two filter estimates.  All definitions using it
take it as an explicit parameter, and the theorems quantify over it. -/
abbrev CumSumRatio := Int → FilterEstimate → FilterEstimate → Int

/-- Modelled from the spec: the fixed-point fraction width (`math.Precision`,
code not under src); the spec fixes a 128-bit fractional representation. -/
def mathPrecision : Nat := 128

/-- Projection factor for the pre-commit deposit (monies.go). -/
def PreCommitDepositFactor : Int := 20

/-- Projection factor for the initial pledge (monies.go). -/
def InitialPledgeFactor : Int := 20

/-- Modelled from the spec: `builtin.EpochsInDay` (code not under src) is a
positive network parameter; all day-denominated projection periods below are a
function of it, so we keep it as an explicit parameter. -/
def PreCommitDepositProjectionPeriod (epochsInDay : Int) : Int :=
  PreCommitDepositFactor * epochsInDay

/-- InitialPledgeProjectionPeriod = InitialPledgeFactor * EpochsInDay (monies.go). -/
def InitialPledgeProjectionPeriod (epochsInDay : Int) : Int :=
  InitialPledgeFactor * epochsInDay

/-- Numerator of the declared-fault projection factor (monies.go). -/
def DeclaredFaultFactorNum : Int := 214

/-- Denominator of the declared-fault projection factor (monies.go). -/
def DeclaredFaultFactorDenom : Int := 100

/-- DeclaredFaultProjectionPeriod = (EpochsInDay * 214) / 100 (monies.go);
Go `int64` division truncates toward zero. -/
def DeclaredFaultProjectionPeriod (epochsInDay : Int) : Int :=
  Int.tdiv (epochsInDay * DeclaredFaultFactorNum) DeclaredFaultFactorDenom

/-- UndeclaredFaultProjectionPeriod = 5 * EpochsInDay (monies.go). -/
def UndeclaredFaultProjectionPeriod (epochsInDay : Int) : Int :=
  5 * epochsInDay

/-- Maximum number of days of block reward a terminated sector is penalized (monies.go). -/
def TerminationLifetimeCap : Int := 70

/-- minEpoch helper (miner_actor.go). -/
def minEpoch (a b : Int) : Int := if a < b then a else b

/-- ExpectedRewardForPower (monies.go): BR(t).  The Q.0 * Q.128 product is
right-shifted by the precision (`big.Rsh`, an arithmetic shift, i.e. floor
division by 2^128) and clamped at zero; when the network power estimate is
zero the reward estimate itself is returned. -/
def ExpectedRewardForPower (cumSumRatio : CumSumRatio)
    (rewardEstimate networkQAPowerEstimate : FilterEstimate)
    (qaSectorPower projectionDuration : Int) : Int :=
  if networkQAPowerEstimate.estimate = 0 then
    rewardEstimate.estimate
  else
    let expectedRewardForProvingPeriod :=
      cumSumRatio projectionDuration rewardEstimate networkQAPowerEstimate
    let br128 := qaSectorPower * expectedRewardForProvingPeriod
    let br := Int.fdiv br128 (2 ^ mathPrecision)
    max br 0

/-- PledgePenaltyForDeclaredFault (monies.go): FF(t). -/
def PledgePenaltyForDeclaredFault (cumSumRatio : CumSumRatio) (epochsInDay : Int)
    (rewardEstimate networkQAPowerEstimate : FilterEstimate)
    (qaSectorPower : Int) : Int :=
  ExpectedRewardForPower cumSumRatio rewardEstimate networkQAPowerEstimate
    qaSectorPower (DeclaredFaultProjectionPeriod epochsInDay)

/-- PledgePenaltyForUndeclaredFault (monies.go): SP(t). -/
def PledgePenaltyForUndeclaredFault (cumSumRatio : CumSumRatio) (epochsInDay : Int)
    (rewardEstimate networkQAPowerEstimate : FilterEstimate)
    (qaSectorPower : Int) : Int :=
  ExpectedRewardForPower cumSumRatio rewardEstimate networkQAPowerEstimate
    qaSectorPower (UndeclaredFaultProjectionPeriod epochsInDay)

/-- PledgePenaltyForTermination (monies.go).  `big.Div` is Go math/big
Euclidean division, embedded as `Int.ediv`. -/
def PledgePenaltyForTermination (cumSumRatio : CumSumRatio) (epochsInDay : Int)
    (dayReward sectorAge twentyDayRewardAtActivation : Int)
    (networkQAPowerEstimate : FilterEstimate) (qaSectorPower : Int)
    (rewardEstimate : FilterEstimate)
    (replacedDayReward replacedSectorAge : Int) : Int :=
  let lifetimeCap := TerminationLifetimeCap * epochsInDay
  let cappedSectorAge := minEpoch sectorAge lifetimeCap
  let expectedReward := dayReward * cappedSectorAge
  let relevantReplacedAge := minEpoch replacedSectorAge (lifetimeCap - cappedSectorAge)
  let expectedRewardTotal := expectedReward + replacedDayReward * relevantReplacedAge
  max
    (PledgePenaltyForUndeclaredFault cumSumRatio epochsInDay
      rewardEstimate networkQAPowerEstimate qaSectorPower)
    (twentyDayRewardAtActivation + Int.ediv expectedRewardTotal epochsInDay)

/-- PreCommitDepositForPower (monies.go). -/
def PreCommitDepositForPower (cumSumRatio : CumSumRatio) (epochsInDay : Int)
    (rewardEstimate networkQAPowerEstimate : FilterEstimate)
    (qaSectorPower : Int) : Int :=
  ExpectedRewardForPower cumSumRatio rewardEstimate networkQAPowerEstimate
    qaSectorPower (PreCommitDepositProjectionPeriod epochsInDay)

/-- InitialPledgeForPower (monies.go).  The lock target is the fraction 3/10 of
the circulating supply (`InitialPledgeLockTarget`); the quotient is Go math/big
Euclidean division. -/
def InitialPledgeForPower (cumSumRatio : CumSumRatio) (epochsInDay : Int)
    (qaPower baselinePower : Int)
    (rewardEstimate networkQAPowerEstimate : FilterEstimate)
    (circulatingSupply : Int) : Int :=
  let ipBase := ExpectedRewardForPower cumSumRatio rewardEstimate
    networkQAPowerEstimate qaPower (InitialPledgeProjectionPeriod epochsInDay)
  let lockTargetNum := 3 * circulatingSupply
  let lockTargetDenom : Int := 10
  let pledgeShareNum := qaPower
  let networkQAPower := networkQAPowerEstimate.estimate
  let pledgeShareDenom := max (max networkQAPower baselinePower) qaPower
  let additionalIPNum := lockTargetNum * pledgeShareNum
  let additionalIPDenom := lockTargetDenom * pledgeShareDenom
  let additionalIP := Int.ediv additionalIPNum additionalIPDenom
  ipBase + additionalIP

/-- A pair of raw-byte and quality-adjusted storage power (miner package). -/
structure PowerPair where
  Raw : Int
  QA : Int
  deriving DecidableEq, Repr

/-- PowerPair.Add (miner package): componentwise sum. -/
def PowerPair.add (a b : PowerPair) : PowerPair :=
  { Raw := a.Raw + b.Raw, QA := a.QA + b.QA }

/-- Modelled from the spec: the result record of `Deadline.RecordProvenSectors`
(deadlines.go, code not under src).  Only the power fields read by
`SubmitWindowedPoSt` lines 406-432 are carried. -/
structure PoStResult where
  PowerDelta : PowerPair
  NewFaultyPower : PowerPair
  RetractedRecoveryPower : PowerPair
  RecoveredPower : PowerPair
  deriving DecidableEq, Repr

/-- Modelled from the spec: `PoStResult.PenaltyPower` (deadlines.go, code not
under src) is the power penalized as undeclared faults, "new skipped faults
plus retracted recoveries" (spec section 4.4). -/
def PoStResult.PenaltyPower (pr : PoStResult) : PowerPair :=
  pr.NewFaultyPower.add pr.RetractedRecoveryPower

/-- The immediate penalty target computed by `SubmitWindowedPoSt`
(miner_actor.go lines 406-427): the undeclared-fault fee on the penalty power,
minus the declared-fault fee on that same power (to be charged by the
end-of-deadline cron), plus the declared-fault fee on the recovered power. -/
def submitWindowedPoStPenaltyTarget (cumSumRatio : CumSumRatio) (epochsInDay : Int)
    (thisEpochRewardSmoothed qualityAdjPowerSmoothed : FilterEstimate)
    (postResult : PoStResult) : Int :=
  let undeclaredPenaltyPower := postResult.PenaltyPower
  let undeclaredPenaltyTarget :=
    PledgePenaltyForUndeclaredFault cumSumRatio epochsInDay
      thisEpochRewardSmoothed qualityAdjPowerSmoothed undeclaredPenaltyPower.QA
  let undeclaredPenaltyTarget :=
    undeclaredPenaltyTarget -
      PledgePenaltyForDeclaredFault cumSumRatio epochsInDay
        thisEpochRewardSmoothed qualityAdjPowerSmoothed undeclaredPenaltyPower.QA
  let declaredPenaltyTarget :=
    PledgePenaltyForDeclaredFault cumSumRatio epochsInDay
      thisEpochRewardSmoothed qualityAdjPowerSmoothed postResult.RecoveredPower.QA
  undeclaredPenaltyTarget + declaredPenaltyTarget

/-- Modelled from the spec: the result record of `State.AdvanceDeadline`
(miner_state.go, code not under src).  Only the fields read by
`handleProvingDeadline` lines 1683-1711 are carried. -/
structure AdvanceDeadlineResult where
  PledgeDelta : Int
  PowerDelta : PowerPair
  DetectedFaultyPower : PowerPair
  TotalFaultyPower : PowerPair
  deriving DecidableEq, Repr

/-- The end-of-deadline penalty target computed by `handleProvingDeadline`
(miner_actor.go lines 1687-1703): newly detected faulty power is charged the
undeclared-fault fee, and the rest of the faulty power the declared-fault fee. -/
def handleProvingDeadlinePenaltyTarget (cumSumRatio : CumSumRatio) (epochsInDay : Int)
    (thisEpochRewardSmoothed qualityAdjPowerSmoothed : FilterEstimate)
    (result : AdvanceDeadlineResult) : Int :=
  let undeclaredPenalty :=
    PledgePenaltyForUndeclaredFault cumSumRatio epochsInDay
      thisEpochRewardSmoothed qualityAdjPowerSmoothed result.DetectedFaultyPower.QA
  let declaredPenalty :=
    PledgePenaltyForDeclaredFault cumSumRatio epochsInDay
      thisEpochRewardSmoothed qualityAdjPowerSmoothed
      (result.TotalFaultyPower.QA - result.DetectedFaultyPower.QA)
  declaredPenalty + undeclaredPenalty

/-- The deposit computation and funds check of `PreCommitSector`
(miner_actor.go lines 549-564): the deposit required is the pre-commit deposit
for the sector weight, floored at the replaced sector's initial pledge when
`ReplaceCapacity` is set; the call aborts with `ErrInsufficientFunds` when the
available balance is below it, and otherwise reserves the deposit. -/
def preCommitDepositStep (cumSumRatio : CumSumRatio) (epochsInDay : Int)
    (thisEpochRewardSmoothed qualityAdjPowerSmoothed : FilterEstimate)
    (sectorWeight : Int) (replaceCapacity : Bool)
    (replacedInitialPledge : Int) (availableBalance : Int) :
    Except ExitCode Int :=
  let depositMinimum := if replaceCapacity then replacedInitialPledge else 0
  let depositReq :=
    max
      (PreCommitDepositForPower cumSumRatio epochsInDay
        thisEpochRewardSmoothed qualityAdjPowerSmoothed sectorWeight)
      depositMinimum
  if availableBalance < depositReq then
    Except.error ExitCode.ErrInsufficientFunds
  else
    Except.ok depositReq

/-- Modelled from the spec: the balance and early-termination fields of the
top-level miner state (spec section 3; miner_state.go is not under src).
Vesting funds are a list of (release epoch, amount) entries. -/
structure MinerState where
  lockedFunds : Int
  vestingFunds : List (Int × Int)
  preCommitDeposits : Int
  initialPledge : Int
  feeDebt : Int
  earlyTerminations : List Nat
  deriving DecidableEq, Repr

/-- Modelled from the spec: `State.UnlockVestedFunds` (miner_state.go, not
under src) releases every vesting entry whose epoch is at or before the
current epoch, reducing locked funds by the released total. -/
def MinerState.unlockVestedFunds (st : MinerState) (currEpoch : Int) :
    MinerState × Int :=
  let vested := ((st.vestingFunds.filter (fun e => decide (e.1 ≤ currEpoch))).map
    (fun e => e.2)).sum
  ({ st with
      lockedFunds := st.lockedFunds - vested,
      vestingFunds := st.vestingFunds.filter (fun e => decide (currEpoch < e.1)) },
    vested)

/-- Modelled from the spec: `State.GetUnlockedBalance` (miner_state.go, not
under src): the actor balance minus locked funds, pre-commit deposits and the
initial-pledge requirement (spec section 3). -/
def MinerState.getUnlockedBalance (st : MinerState) (actorBalance : Int) : Int :=
  actorBalance - st.lockedFunds - st.preCommitDeposits - st.initialPledge

/-- Modelled from the spec: `State.GetAvailableBalance` (miner_state.go, not
under src): the unlocked balance minus the fee debt, per the spec's balance
invariant `available = actor_balance − (pcd + locked + ip) − fee_debt`. -/
def MinerState.getAvailableBalance (st : MinerState) (actorBalance : Int) : Int :=
  st.getUnlockedBalance actorBalance - st.feeDebt

/-- Modelled from the spec: `State.RepayDebt` (miner_state.go, not under src)
repays all fee debt from the unlocked balance, returning the amount to burn;
it fails when the unlocked balance cannot repay the fee debt (the error is
surfaced as `ErrIllegalState` by the caller in monies.go). -/
def MinerState.repayDebt (st : MinerState) (currBalance : Int) :
    Except ExitCode (MinerState × Int) :=
  if st.getUnlockedBalance currBalance < st.feeDebt then
    Except.error ExitCode.ErrIllegalState
  else
    Except.ok ({ st with feeDebt := 0 }, st.feeDebt)

/-- Modelled from the spec: `State.MeetsInitialPledgeCondition`
(miner_state.go, not under src): the balance covers the pledge requirements,
i.e. the unlocked balance (which already deducts the initial-pledge
requirement) is non-negative — the spec's balance invariant
`actor_balance ≥ pre_commit_deposits + locked_funds + initial_pledge`. -/
def MinerState.meetsInitialPledgeCondition (st : MinerState) (balance : Int) : Bool :=
  decide (0 ≤ st.getUnlockedBalance balance)

/-- VerifyPledgeRequirementsAndRepayDebts (monies.go lines 146-158): repays all
fee debt, then aborts with `ErrInsufficientFunds` unless the balance net of the
burnt debt covers the pledge requirement.  Returns the amount to burn. -/
def VerifyPledgeRequirementsAndRepayDebts (st : MinerState) (currBalance : Int) :
    Except ExitCode (MinerState × Int) :=
  match st.repayDebt currBalance with
  | Except.error e => Except.error e
  | Except.ok (st1, toBurn) =>
    if !(st1.meetsInitialPledgeCondition (currBalance - toBurn)) then
      Except.error ExitCode.ErrInsufficientFunds
    else
      Except.ok (st1, toBurn)

/-- WithdrawBalance (miner_actor.go lines 1477-1534).  Aborting (the VM
transaction semantics of spec section 5) is modelled by `Except.error`, which
discards all state updates.  On success the result carries the final state,
the amount sent to the owner (the code skips a literal zero-valued send, which
transfers the same amount), and the fee debt burnt. -/
def WithdrawBalance (st : MinerState) (currBalance currEpoch amountRequested : Int) :
    Except ExitCode (MinerState × Int × Int) :=
  if amountRequested < 0 then
    Except.error ExitCode.ErrIllegalArgument
  else if !st.earlyTerminations.isEmpty then
    Except.error ExitCode.ErrForbidden
  else
    let vestResult := st.unlockVestedFunds currEpoch
    let st1 := vestResult.1
    let availableBalance := st1.getAvailableBalance currBalance
    match VerifyPledgeRequirementsAndRepayDebts st1 currBalance with
    | Except.error e => Except.error e
    | Except.ok (st2, feeToBurn) =>
      let amountWithdrawn := min availableBalance amountRequested
      Except.ok (st2, amountWithdrawn, feeToBurn)

/-- WPoStProvingPeriod (testground policy constants, src/unnamed/part_000). -/
def WPoStProvingPeriod : Int := 240

/-- WPoStChallengeWindow (testground policy constants, src/unnamed/part_000). -/
def WPoStChallengeWindow : Int := 5

/-- WPoStPeriodDeadlines = WPoStProvingPeriod / WPoStChallengeWindow
(testground policy constants, src/unnamed/part_000). -/
def WPoStPeriodDeadlines : Nat :=
  (WPoStProvingPeriod / WPoStChallengeWindow).toNat

/-- The observations of a `SubmitWindowedPoSt` call that its validation
sequence (miner_actor.go lines 304-361) branches on, for a call from an
authorized caller.  `proofTypeMatches` states that the single supplied proof
has the miner's registered window-PoSt proof type; `submissionPartitionLimit`
is `loadPartitionsSectorsMax(info.WindowPoStPartitionSectors)` (policy code not
under src, kept abstract); `commRandMatches` states that the chain-commit
randomness equals the randomness drawn at the deadline's challenge epoch. -/
structure SubmitPoStInput where
  paramsDeadline : Nat
  numProofs : Nat
  proofTypeMatches : Bool
  numPartitions : Nat
  submissionPartitionLimit : Nat
  currDeadlineIsOpen : Bool
  currDeadlineIndex : Nat
  commRandMatches : Bool
  deriving DecidableEq, Repr

/-- The validation sequence of `SubmitWindowedPoSt` (miner_actor.go lines
304-361), in source order: deadline index range, proof count, proof type,
partition count, open proving deadline, deadline index match, chain-commit
randomness. -/
def submitWindowedPoStValidation (i : SubmitPoStInput) : Except ExitCode Unit :=
  if WPoStPeriodDeadlines ≤ i.paramsDeadline then
    Except.error ExitCode.ErrIllegalArgument
  else if 1 < i.numProofs then
    Except.error ExitCode.ErrIllegalArgument
  else if i.numProofs = 1 && !i.proofTypeMatches then
    Except.error ExitCode.ErrIllegalArgument
  else if i.submissionPartitionLimit < i.numPartitions then
    Except.error ExitCode.ErrIllegalArgument
  else if !i.currDeadlineIsOpen then
    Except.error ExitCode.ErrIllegalState
  else if i.paramsDeadline ≠ i.currDeadlineIndex then
    Except.error ExitCode.ErrIllegalArgument
  else if !i.commRandMatches then
    Except.error ExitCode.ErrIllegalArgument
  else
    Except.ok ()

/-- Cron event types (miner_actor.go lines 33-37). -/
inductive CronEventType where
  | WorkerKeyChange
  | ProvingDeadline
  | ProcessEarlyTerminations
  deriving DecidableEq, Repr

/-- scheduleEarlyTerminationWork (miner_actor.go lines 1843-1847): enrolls a
cron event of the early-termination type for the next epoch. -/
def scheduleEarlyTerminationWork (currEpoch : Int) : Int × CronEventType :=
  (currEpoch + 1, CronEventType.ProcessEarlyTerminations)

/-- The early-termination cron events sent by the tail of `TerminateSectors`
(miner_actor.go lines 1107-1116).  `hadEarlyTerminations` is
`havePendingEarlyTerminations` recorded at entry; `more` is the flag returned
by `processEarlyTerminations`, which (modelled from the spec, section 4.2's
`pop_early_terminations` more-flag; state code not under src) is true exactly
when early-termination work remains pending after the call. -/
def terminateSectorsEarlyTermCron (hadEarlyTerminations more : Bool)
    (currEpoch : Int) : List (Int × CronEventType) :=
  if more && !hadEarlyTerminations then [scheduleEarlyTerminationWork currEpoch]
  else []

/-- The early-termination cron events sent by the tail of
`handleProvingDeadline` (miner_actor.go lines 1725-1739).
`hadEarlyTerminations` is recorded before advancing the deadline,
`hasEarlyTerminations` after; `more` is the flag of the immediate
`processEarlyTerminations` attempt, true exactly when work remains after it.
The proving-deadline cron event that the same function always enrolls has a
different event type and is not listed here. -/
def handleProvingDeadlineEarlyTermCron
    (hadEarlyTerminations hasEarlyTerminations more : Bool)
    (currEpoch : Int) : List (Int × CronEventType) :=
  if !hadEarlyTerminations && hasEarlyTerminations then
    if more then [scheduleEarlyTerminationWork currEpoch] else []
  else []

/-- Modelled from the spec: `Sectors.LoadForProof` (sectors code not under
src).  Per spec section 4.3, the sector set passed to proof verification is
the proven sectors with each faulty/recovering one replaced by a known-good
substitute; when no non-faulty sector remains the result is empty. -/
def loadForProof (provenSectors ignoredSectors : List Nat) : List Nat :=
  match provenSectors.filter (fun s => !(ignoredSectors.contains s)) with
  | [] => []
  | good :: _ =>
    provenSectors.map (fun s => if ignoredSectors.contains s then good else s)

/-- The proof-presence check of `SubmitWindowedPoSt` (miner_actor.go lines
389-404): when any sector remains to be proven, a call carrying zero proofs
aborts with `ErrIllegalArgument`; when the substituted sector set is empty,
verification is skipped and the call proceeds.  The external proof
verification syscall for a non-empty proof is outside this embedding and is
modelled as succeeding. -/
def windowPoStProofCheck (numProofs : Nat)
    (provenSectors ignoredSectors : List Nat) : Except ExitCode Unit :=
  let sectorInfos := loadForProof provenSectors ignoredSectors
  if 0 < sectorInfos.length then
    if numProofs = 0 then Except.error ExitCode.ErrIllegalArgument
    else Except.ok ()
  else
    Except.ok ()

/-- C1: for every SubmitWindowedPoSt call that passes validation, the immediate
penalty target equals the undeclared-fault fee on the QA power of new skipped
faults plus retracted recoveries, minus the declared-fault fee on that same
power, plus the declared-fault fee on the QA power of recovered sectors. -/
theorem submitWindowedPoSt_penalty_target_eq (cumSumRatio : CumSumRatio)
    (epochsInDay : Int) (rewardSm powerSm : FilterEstimate) (pr : PoStResult) :
    submitWindowedPoStPenaltyTarget cumSumRatio epochsInDay rewardSm powerSm pr =
      PledgePenaltyForUndeclaredFault cumSumRatio epochsInDay rewardSm powerSm
        (pr.NewFaultyPower.QA + pr.RetractedRecoveryPower.QA)
      - PledgePenaltyForDeclaredFault cumSumRatio epochsInDay rewardSm powerSm
        (pr.NewFaultyPower.QA + pr.RetractedRecoveryPower.QA)
      + PledgePenaltyForDeclaredFault cumSumRatio epochsInDay rewardSm powerSm
        pr.RecoveredPower.QA := rfl

/-- C2: in every end-of-deadline cron invocation, the penalty target is the sum
of the undeclared-fault fee on the newly detected faulty QA power and the
declared-fault fee on the total faulty QA power minus the newly detected
faulty QA power. -/
theorem handleProvingDeadline_penalty_target_eq (cumSumRatio : CumSumRatio)
    (epochsInDay : Int) (rewardSm powerSm : FilterEstimate)
    (result : AdvanceDeadlineResult) :
    handleProvingDeadlinePenaltyTarget cumSumRatio epochsInDay rewardSm powerSm
        result =
      PledgePenaltyForUndeclaredFault cumSumRatio epochsInDay rewardSm powerSm
        result.DetectedFaultyPower.QA
      + PledgePenaltyForDeclaredFault cumSumRatio epochsInDay rewardSm powerSm
        (result.TotalFaultyPower.QA - result.DetectedFaultyPower.QA) := by
  unfold handleProvingDeadlinePenaltyTarget
  exact add_comm _ _

/-- C3: PledgePenaltyForTermination returns the maximum of the undeclared-fault
fee and the twenty-day reward at activation, plus the day reward over the
sector age capped at the 70-day lifetime cap, plus the replaced sector's day
reward over the replaced age capped at the cap minus the capped new age, the
reward-epochs total converted to days by one floor division. -/
theorem pledgePenaltyForTermination_eq (cumSumRatio : CumSumRatio)
    (epochsInDay dayReward sectorAge twentyDayRewardAtActivation : Int)
    (networkQAPowerEstimate : FilterEstimate) (qaSectorPower : Int)
    (rewardEstimate : FilterEstimate) (replacedDayReward replacedSectorAge : Int) :
    PledgePenaltyForTermination cumSumRatio epochsInDay dayReward sectorAge
        twentyDayRewardAtActivation networkQAPowerEstimate qaSectorPower
        rewardEstimate replacedDayReward replacedSectorAge =
      max
        (PledgePenaltyForUndeclaredFault cumSumRatio epochsInDay
          rewardEstimate networkQAPowerEstimate qaSectorPower)
        (twentyDayRewardAtActivation +
          Int.ediv
            (dayReward * min sectorAge (70 * epochsInDay) +
              replacedDayReward *
                min replacedSectorAge
                  (70 * epochsInDay - min sectorAge (70 * epochsInDay)))
            epochsInDay) := by
  have hmin : ∀ a b : Int, minEpoch a b = min a b := by
    intro a b
    unfold minEpoch
    rw [min_def]
    split_ifs <;> omega
  simp only [PledgePenaltyForTermination, TerminationLifetimeCap, hmin]

/-- C4 (counterexample): as stated, the claim fails when the network QA-power
estimate is zero: there ExpectedRewardForPower returns the reward estimate
itself, not the clamped shifted product. -/
theorem expectedRewardForPower_claim_counterexample :
    ¬ (ExpectedRewardForPower (fun _ _ _ => 0)
          (FilterEstimate.mk 1) (FilterEstimate.mk 0) 1 1 =
        max 0 (Int.fdiv (1 * (0 : Int)) (2 ^ mathPrecision))) := by
  simp [ExpectedRewardForPower, Int.zero_fdiv]

/-- C4 (amended): whenever the network QA-power estimate is nonzero,
ExpectedRewardForPower returns max(0, qa power times the extrapolated
cumulative sum of the reward/power ratio over the duration, right-shifted by
the 128-bit fixed-point precision); when it is zero, it returns the reward
estimate itself. -/
theorem expectedRewardForPower_eq (cumSumRatio : CumSumRatio)
    (rewardEstimate networkQAPowerEstimate : FilterEstimate)
    (qaSectorPower projectionDuration : Int) :
    (networkQAPowerEstimate.estimate ≠ 0 →
      ExpectedRewardForPower cumSumRatio rewardEstimate networkQAPowerEstimate
          qaSectorPower projectionDuration =
        max 0
          (Int.fdiv
            (qaSectorPower *
              cumSumRatio projectionDuration rewardEstimate networkQAPowerEstimate)
            (2 ^ mathPrecision)))
    ∧ (networkQAPowerEstimate.estimate = 0 →
      ExpectedRewardForPower cumSumRatio rewardEstimate networkQAPowerEstimate
          qaSectorPower projectionDuration = rewardEstimate.estimate) := by
  constructor <;> intro h <;>
    simp [ExpectedRewardForPower, h, max_comm]

/-- C4 witness: the amended equation evaluated at a nonzero network estimate. -/
theorem expectedRewardForPower_eq_witness :
    (FilterEstimate.mk 2).estimate ≠ 0 ∧
      ExpectedRewardForPower (fun _ _ _ => 2 ^ mathPrecision)
          (FilterEstimate.mk 5) (FilterEstimate.mk 2) 3 7 =
        max 0 (Int.fdiv ((3 : Int) * 2 ^ mathPrecision) (2 ^ mathPrecision)) :=
  ⟨by decide,
    (expectedRewardForPower_eq (fun _ _ _ => 2 ^ mathPrecision)
      (FilterEstimate.mk 5) (FilterEstimate.mk 2) 3 7).1 (by decide)⟩

/-- C5: InitialPledgeForPower returns the expected reward for the QA power over
the initial-pledge projection period plus the lock-target fraction (3/10) of
the circulating supply times the QA power, divided by the maximum of the
network QA power, the baseline power and the QA power. -/
theorem initialPledgeForPower_eq (cumSumRatio : CumSumRatio) (epochsInDay : Int)
    (qaPower baselinePower : Int)
    (rewardEstimate networkQAPowerEstimate : FilterEstimate)
    (circulatingSupply : Int) :
    InitialPledgeForPower cumSumRatio epochsInDay qaPower baselinePower
        rewardEstimate networkQAPowerEstimate circulatingSupply =
      ExpectedRewardForPower cumSumRatio rewardEstimate networkQAPowerEstimate
        qaPower (InitialPledgeProjectionPeriod epochsInDay)
      + Int.ediv (3 * circulatingSupply * qaPower)
          (10 * max (max networkQAPowerEstimate.estimate baselinePower) qaPower) :=
  rfl

/-- Helper: a successful debt-repayment step burns exactly the prior fee debt
and leaves the state with the fee debt cleared and all other fields intact. -/
theorem verifyPledgeRepay_ok (st : MinerState) (currBalance : Int)
    (st2 : MinerState) (toBurn : Int)
    (h : VerifyPledgeRequirementsAndRepayDebts st currBalance =
      Except.ok (st2, toBurn)) :
    toBurn = st.feeDebt ∧ st2 = { st with feeDebt := 0 } := by
  unfold VerifyPledgeRequirementsAndRepayDebts MinerState.repayDebt at h
  split at h
  · exact absurd h (by simp)
  next st1 toBurn1 heq =>
    split at heq
    · exact absurd heq (by simp)
    · simp only [Except.ok.injEq, Prod.mk.injEq] at heq
      split at h
      · exact absurd h (by simp)
      · simp only [Except.ok.injEq, Prod.mk.injEq] at h
        obtain ⟨h1, h2⟩ := h
        obtain ⟨e1, e2⟩ := heq
        constructor
        · rw [← h2, ← e2]
        · rw [← h1, ← e1]

/-- C6: with a non-empty early-terminations deadline bitfield, WithdrawBalance
aborts with Forbidden (an abort persists no state); with it empty, a
successful call burns exactly the fee debt (repaying it before sending) and
sends to the owner exactly the minimum of the requested amount and the
available balance. -/
theorem withdrawBalance_spec (st : MinerState)
    (currBalance currEpoch amountRequested : Int) :
    (st.earlyTerminations ≠ [] → 0 ≤ amountRequested →
      WithdrawBalance st currBalance currEpoch amountRequested =
        Except.error ExitCode.ErrForbidden)
    ∧ (∀ st2 sent burned, st.earlyTerminations = [] →
        WithdrawBalance st currBalance currEpoch amountRequested =
          Except.ok (st2, sent, burned) →
        burned = st.feeDebt ∧ st2.feeDebt = 0 ∧
          sent =
            min
              ((st.unlockVestedFunds currEpoch).1.getAvailableBalance currBalance)
              amountRequested) := by
  constructor
  · intro hne hreq
    obtain ⟨a, l, h⟩ : ∃ a l, st.earlyTerminations = a :: l := by
      cases hE : st.earlyTerminations with
      | nil => exact absurd hE hne
      | cons a l => exact ⟨a, l, rfl⟩
    simp [WithdrawBalance, h, not_lt.mpr hreq]
  · intro st2 sent burned hnil hok
    unfold WithdrawBalance at hok
    rw [hnil] at hok
    simp only [List.isEmpty_nil, Bool.not_true, Bool.false_eq_true, if_false] at hok
    split at hok
    · exact absurd hok (by simp)
    · rcases hV : VerifyPledgeRequirementsAndRepayDebts
        ((st.unlockVestedFunds currEpoch).1) currBalance with e | p
      · rw [hV] at hok
        exact absurd hok (by simp)
      · obtain ⟨st2h, toBurn⟩ := p
        rw [hV] at hok
        simp only [Except.ok.injEq, Prod.mk.injEq] at hok
        obtain ⟨hst, hsent, hburn⟩ := hok
        obtain ⟨hb, hs⟩ := verifyPledgeRepay_ok _ _ _ _ hV
        refine ⟨?_, ?_, hsent.symm⟩
        · rw [← hburn, hb]
          rfl
        · rw [← hst, hs]

/-- C6 witness: a concrete state with fee debt 2, balance 10 and request 3:
the successful withdrawal burns the debt and sends min(3, available) = 3. -/
theorem withdrawBalance_spec_witness :
    (MinerState.mk 0 [] 0 0 2 []).earlyTerminations = [] ∧
      ((2 : Int) = (MinerState.mk 0 [] 0 0 2 []).feeDebt ∧
        (MinerState.mk 0 [] 0 0 0 []).feeDebt = 0 ∧
        (3 : Int) =
          min
            (((MinerState.mk 0 [] 0 0 2 []).unlockVestedFunds 0).1.getAvailableBalance
              10)
            3) :=
  ⟨rfl,
    (withdrawBalance_spec (MinerState.mk 0 [] 0 0 2 []) 10 0 3).2
      (MinerState.mk 0 [] 0 0 0 []) 3 2 rfl rfl⟩

/-- C7: an authorized SubmitWindowedPoSt call made while the current deadline
is open aborts with IllegalArgument (persisting nothing) whenever the deadline
parameter differs from the current open deadline index, more than one proof is
supplied, the single supplied proof's type differs from the registered
window-PoSt proof type, the claimed partition count exceeds the submission
limit, or the chain-commit randomness does not match the randomness drawn at
the deadline's challenge epoch. -/
theorem submitWindowedPoStValidation_illegalArgument (i : SubmitPoStInput)
    (hopen : i.currDeadlineIsOpen = true)
    (hbad : i.paramsDeadline ≠ i.currDeadlineIndex ∨ 1 < i.numProofs ∨
      (i.numProofs = 1 ∧ i.proofTypeMatches = false) ∨
      i.submissionPartitionLimit < i.numPartitions ∨
      i.commRandMatches = false) :
    submitWindowedPoStValidation i = Except.error ExitCode.ErrIllegalArgument := by
  unfold submitWindowedPoStValidation
  split_ifs with h1 h2 h3 h4 h5 h6 h7 <;> try rfl
  · exact absurd hopen (by simpa using h5)
  · exfalso
    rcases hbad with hb | hb | ⟨hba, hbb⟩ | hb | hb
    · exact h6 hb
    · exact h2 hb
    · exact h3 (by simp [hba, hbb])
    · exact h4 hb
    · simp [hb] at h7

/-- C7 witness: a two-proof submission during an open deadline aborts with
IllegalArgument. -/
theorem submitWindowedPoStValidation_illegalArgument_witness :
    (SubmitPoStInput.mk 0 2 true 0 10 true 0 true).currDeadlineIsOpen = true ∧
      1 < (SubmitPoStInput.mk 0 2 true 0 10 true 0 true).numProofs ∧
      submitWindowedPoStValidation (SubmitPoStInput.mk 0 2 true 0 10 true 0 true) =
        Except.error ExitCode.ErrIllegalArgument :=
  ⟨rfl, by decide,
    submitWindowedPoStValidation_illegalArgument
      (SubmitPoStInput.mk 0 2 true 0 10 true 0 true) rfl
      (Or.inr (Or.inl (by decide)))⟩

/-- C8: the PreCommitSector deposit step reserves the maximum of the
pre-commit-projection expected reward for the sector's QA weight and, when
replace_capacity is set, the replaced sector's initial pledge; it aborts with
InsufficientFunds exactly when the available balance is below that deposit. -/
theorem preCommitDepositStep_spec (cumSumRatio : CumSumRatio) (epochsInDay : Int)
    (rewardSm powerSm : FilterEstimate) (sectorWeight : Int)
    (replaceCapacity : Bool) (replacedInitialPledge availableBalance : Int) :
    (availableBalance <
        max
          (ExpectedRewardForPower cumSumRatio rewardSm powerSm sectorWeight
            (PreCommitDepositProjectionPeriod epochsInDay))
          (if replaceCapacity then replacedInitialPledge else 0) →
      preCommitDepositStep cumSumRatio epochsInDay rewardSm powerSm sectorWeight
          replaceCapacity replacedInitialPledge availableBalance =
        Except.error ExitCode.ErrInsufficientFunds)
    ∧ (max
          (ExpectedRewardForPower cumSumRatio rewardSm powerSm sectorWeight
            (PreCommitDepositProjectionPeriod epochsInDay))
          (if replaceCapacity then replacedInitialPledge else 0) ≤
        availableBalance →
      preCommitDepositStep cumSumRatio epochsInDay rewardSm powerSm sectorWeight
          replaceCapacity replacedInitialPledge availableBalance =
        Except.ok
          (max
            (ExpectedRewardForPower cumSumRatio rewardSm powerSm sectorWeight
              (PreCommitDepositProjectionPeriod epochsInDay))
            (if replaceCapacity then replacedInitialPledge else 0))) := by
  constructor <;> intro h <;>
    simp [preCommitDepositStep, PreCommitDepositForPower, h, not_lt.mpr h]

/-- C8 witness: with expected reward 0, a replaced pledge of 10 and available
balance 5, the deposit step aborts with InsufficientFunds. -/
theorem preCommitDepositStep_spec_witness :
    ((5 : Int) <
        max
          (ExpectedRewardForPower (fun _ _ _ => 0) (FilterEstimate.mk 0)
            (FilterEstimate.mk 1) 0 (PreCommitDepositProjectionPeriod 1))
          (if true then (10 : Int) else 0)) ∧
      preCommitDepositStep (fun _ _ _ => 0) 1 (FilterEstimate.mk 0)
          (FilterEstimate.mk 1) 0 true 10 5 =
        Except.error ExitCode.ErrInsufficientFunds := by
  have h : (5 : Int) <
      max
        (ExpectedRewardForPower (fun _ _ _ => 0) (FilterEstimate.mk 0)
          (FilterEstimate.mk 1) 0 (PreCommitDepositProjectionPeriod 1))
        (if true then (10 : Int) else 0) := by
    simp [ExpectedRewardForPower, Int.zero_fdiv]
  exact ⟨h,
    (preCommitDepositStep_spec (fun _ _ _ => 0) 1 (FilterEstimate.mk 0)
      (FilterEstimate.mk 1) 0 true 10 5).1 h⟩

/-- C9: whenever TerminateSectors or the end-of-deadline cron leaves
early-termination work pending that was not pending at entry, an
early-termination cron event is enrolled for the next epoch; when such work
was already pending at entry, no early-termination cron event is sent. -/
theorem earlyTerminationCron_spec (had has more : Bool) (currEpoch : Int) :
    (had = false → more = true →
      terminateSectorsEarlyTermCron had more currEpoch =
        [(currEpoch + 1, CronEventType.ProcessEarlyTerminations)])
    ∧ (had = true → terminateSectorsEarlyTermCron had more currEpoch = [])
    ∧ (had = false → has = true → more = true →
      handleProvingDeadlineEarlyTermCron had has more currEpoch =
        [(currEpoch + 1, CronEventType.ProcessEarlyTerminations)])
    ∧ (had = true →
      handleProvingDeadlineEarlyTermCron had has more currEpoch = []) := by
  refine ⟨?_, ?_, ?_, ?_⟩ <;>
    · intros
      subst_vars
      simp [terminateSectorsEarlyTermCron, handleProvingDeadlineEarlyTermCron,
        scheduleEarlyTerminationWork]

/-- C9 witness: with no work pending at entry and work remaining, a cron event
for the next epoch is produced; with work already pending at entry, none is. -/
theorem earlyTerminationCron_spec_witness :
    terminateSectorsEarlyTermCron false true 5 =
        [(5 + 1, CronEventType.ProcessEarlyTerminations)] ∧
      handleProvingDeadlineEarlyTermCron true true true 5 = [] :=
  ⟨(earlyTerminationCron_spec false true true 5).1 rfl rfl,
    (earlyTerminationCron_spec true true true 5).2.2.2 rfl⟩

/-- Helper: the substituted proof sector set is empty exactly when every
proven sector is ignored (faulty or skipped). -/
theorem loadForProof_eq_nil_iff (proven ignored : List Nat) :
    loadForProof proven ignored = [] ↔ ∀ s ∈ proven, s ∈ ignored := by
  unfold loadForProof
  split
  next heq =>
    simp only [true_iff]
    rw [List.filter_eq_nil_iff] at heq
    intro s hs
    have := heq s hs
    simpa using this
  next good rest heq =>
    constructor
    · intro hmap
      rw [List.map_eq_nil_iff] at hmap
      rw [hmap] at heq
      simp at heq
    · intro hall
      exfalso
      have hmem : good ∈ proven.filter (fun s => !(ignored.contains s)) := by
        rw [heq]; exact List.mem_cons_self _ _
      rw [List.mem_filter] at hmem
      have := hall good hmem.1
      simp [this] at hmem

/-- C10: a SubmitWindowedPoSt call carrying zero proofs passes the
proof-presence check exactly when every addressed sector is faulty or skipped
(the substituted proof set is empty); when any non-faulty sector remains to be
proven, it aborts with IllegalArgument. -/
theorem windowPoStProofCheck_zeroProofs (provenSectors ignoredSectors : List Nat) :
    (windowPoStProofCheck 0 provenSectors ignoredSectors = Except.ok () ↔
      ∀ s ∈ provenSectors, s ∈ ignoredSectors)
    ∧ ((∃ s ∈ provenSectors, s ∉ ignoredSectors) →
      windowPoStProofCheck 0 provenSectors ignoredSectors =
        Except.error ExitCode.ErrIllegalArgument) := by
  have hmain : windowPoStProofCheck 0 provenSectors ignoredSectors = Except.ok () ↔
      ∀ s ∈ provenSectors, s ∈ ignoredSectors := by
    unfold windowPoStProofCheck
    by_cases hall : ∀ s ∈ provenSectors, s ∈ ignoredSectors
    · have hnil : loadForProof provenSectors ignoredSectors = [] :=
        (loadForProof_eq_nil_iff provenSectors ignoredSectors).mpr hall
      simp [hnil]
      exact hall
    · have hne : loadForProof provenSectors ignoredSectors ≠ [] := by
        intro hnil
        exact hall ((loadForProof_eq_nil_iff provenSectors ignoredSectors).mp hnil)
      have hlen : 0 < (loadForProof provenSectors ignoredSectors).length :=
        List.length_pos.mpr hne
      simp [hlen, hall]
  refine ⟨hmain, ?_⟩
  intro hex
  have hnall : ¬ ∀ s ∈ provenSectors, s ∈ ignoredSectors := by
    obtain ⟨s, hs, hns⟩ := hex
    intro hall
    exact hns (hall s hs)
  have hne : loadForProof provenSectors ignoredSectors ≠ [] := by
    intro hnil
    exact hnall ((loadForProof_eq_nil_iff provenSectors ignoredSectors).mp hnil)
  have hlen : 0 < (loadForProof provenSectors ignoredSectors).length :=
    List.length_pos.mpr hne
  unfold windowPoStProofCheck
  simp [hlen]

/-- C10 witness: with one proven non-faulty sector and zero proofs, the check
aborts with IllegalArgument. -/
theorem windowPoStProofCheck_zeroProofs_witness :
    (∃ s ∈ [1], s ∉ ([] : List Nat)) ∧
      windowPoStProofCheck 0 [1] [] =
        Except.error ExitCode.ErrIllegalArgument := by
  have hex : ∃ s ∈ [1], s ∉ ([] : List Nat) := ⟨1, by simp, by simp⟩
  exact ⟨hex, (windowPoStProofCheck_zeroProofs [1] []).2 hex⟩

end MinerActor
